import Mathlib

/-!
Verification of the NormalInverseGamma distribution from distcan
(src/distcan/univariate.py, class NormalInverseGamma).

The class stores four real parameters and offers closed-form density
(pdf, logpdf), moment (mode, mean) and sampling (rand) operations.  We
embed the numeric methods as functions over the real numbers: Python's
math.sqrt / math.log / math.exp / math.pi and scipy's gamma / gammaln
become Real.sqrt, Real.log, Real.exp, Real.pi, Real.Gamma and
Real.log (Real.Gamma _); Python's float power with a real exponent
becomes real rpow.  The two pseudo-random primitives the sampler
consumes (an InverseGamma draw and a Normal draw) are passed in as
explicit oracles, so that sampling statements quantify over every value
the underlying samplers could produce.  For claims about Python-level
exception behaviour, a second embedding of the density methods tracks
which arithmetic operations CPython can raise on (float division by
zero, math.log of a non-positive number) while numpy scalar operations,
which emit warnings but never raise, stay total.
-/

/-- State of a NormalInverseGamma object: the four attributes assigned
verbatim by the constructor (univariate.py line 517-521). -/
@[ext]
structure NormalInverseGamma where
  mu : ℝ
  v0 : ℝ
  shape : ℝ
  scale : ℝ

namespace NormalInverseGamma

/-- Embedding of NormalInverseGamma.pdf (univariate.py line 532-536):
Zinv = sc**sh / gamma(sh) / sqrt(v * 2*pi) and the return value
Zinv * 1./(np.sqrt(sig2) * sig2**(sh+1.)) * np.exp(-sc/sig2 - 0.5/(sig2*v)*(x-m)**2.0). -/
noncomputable def pdf (d : NormalInverseGamma) (x sig2 : ℝ) : ℝ :=
  let Zinv := d.scale ^ d.shape / Real.Gamma d.shape / Real.sqrt (d.v0 * (2 * Real.pi))
  Zinv * (1 / (Real.sqrt sig2 * sig2 ^ (d.shape + 1))) *
    Real.exp (-d.scale / sig2 - 0.5 / (sig2 * d.v0) * (x - d.mu) ^ 2)

/-- Embedding of NormalInverseGamma.logpdf (univariate.py line 538-542):
lZinv = sh*log(sc) - gammaln(sh) - 0.5*(log(v) + log(2*pi)) and the return value
lZinv - 0.5*np.log(sig2) - (sh+1.)*np.log(sig2) - sc/sig2 - 0.5/(sig2*v)*(x-m)**2,
with the log-gamma capability gammaln read as Real.log (Real.Gamma _). -/
noncomputable def logpdf (d : NormalInverseGamma) (x sig2 : ℝ) : ℝ :=
  let lZinv := d.shape * Real.log d.scale - Real.log (Real.Gamma d.shape) -
    0.5 * (Real.log d.v0 + Real.log (2 * Real.pi))
  lZinv - 0.5 * Real.log sig2 - (d.shape + 1) * Real.log sig2 -
    d.scale / sig2 - 0.5 / (sig2 * d.v0) * (x - d.mu) ^ 2

/-- Embedding of the mode property (univariate.py line 544-546):
returns (self.mu, self.scale / (self.shape + 1.0)). -/
noncomputable def mode (d : NormalInverseGamma) : ℝ × ℝ :=
  (d.mu, d.scale / (d.shape + 1))

/-- Embedding of the mean property (univariate.py line 548-551):
sig2 = self.scale / (self.shape - 1.0) if self.shape > 1.0 else np.inf,
returning (self.mu, sig2).  np.inf is modelled as the top element of the
extended reals, an ordinary value rather than an error. -/
noncomputable def mean (d : NormalInverseGamma) : ℝ × EReal :=
  (d.mu, if 1 < d.shape then Real.toEReal (d.scale / (d.shape - 1)) else (⊤ : EReal))

/-- The clamping constant used by _rand1 (univariate.py line 557):
np.finfo(float).resolution, defined by numpy as 10.0 ** -precision with
precision = 15 for float64, i.e. 1e-15. -/
noncomputable def npResolution : ℝ := 1 / 10 ^ 15

/-- Modelled from the spec: the machine epsilon the spec (section 4.1,
rand step (b)) says the drawn variance is clamped to, described there as
the smallest representable positive floating-point increment above zero
(machine epsilon); for IEEE-754 float64 the machine epsilon, which is
also what julia eps() returns, is 2^-52. -/
noncomputable def machineEpsSpec : ℝ := 1 / 2 ^ 52

/-- Embedding of NormalInverseGamma._rand1 (univariate.py line 553-560).
The InverseGamma(shape, scale).rand() draw is the oracle value igDraw;
Normal(mean, std).rand() is the oracle normalDraw applied to the mean and
standard deviation the code constructs it with.  The body clamps a
non-positive draw to np.finfo(float).resolution and returns (mu, sig2). -/
noncomputable def rand1 (d : NormalInverseGamma) (igDraw : ℝ)
    (normalDraw : ℝ → ℝ → ℝ) : ℝ × ℝ :=
  let sig2 := igDraw
  let sig2 := if sig2 ≤ 0 then npResolution else sig2
  (normalDraw d.mu (Real.sqrt (sig2 * d.v0)), sig2)

/-- Embedding of NormalInverseGamma.rand (univariate.py line 562-570).
For n == 1 the single pair from _rand1 is returned directly; otherwise an
n-row array is filled with one _rand1 result per iteration.  The i-th
loop iteration consumes fresh randomness, modelled by indexing the two
oracles with the iteration counter. -/
noncomputable def rand (d : NormalInverseGamma) (n : ℕ) (ig : ℕ → ℝ)
    (nr : ℕ → ℝ → ℝ → ℝ) : (ℝ × ℝ) ⊕ List (ℝ × ℝ) :=
  if n = 1 then Sum.inl (rand1 d (ig 0) (nr 0))
  else Sum.inr ((List.range n).map (fun i => rand1 d (ig i) (nr i)))

/-- The pdf formula exactly as written in the spec (section 4.1):
Zinv = scale^shape / Gamma(shape) / sqrt(v0 * 2*pi) and
pdf = Zinv * (1 / (sqrt(sig2) * sig2^(shape+1)))
           * exp(-scale/sig2 - (x - mu)^2 / (2 * sig2 * v0)). -/
noncomputable def pdfSpecFormula (d : NormalInverseGamma) (x sig2 : ℝ) : ℝ :=
  let Zinv := d.scale ^ d.shape / Real.Gamma d.shape / Real.sqrt (d.v0 * (2 * Real.pi))
  Zinv * (1 / (Real.sqrt sig2 * sig2 ^ (d.shape + 1))) *
    Real.exp (-(d.scale / sig2) - (x - d.mu) ^ 2 / (2 * sig2 * d.v0))

/-- Invocation of pdf on an object state: the method body (univariate.py
line 532-536) only reads self, so the post-call state is the same
record. -/
noncomputable def pdfCall (d : NormalInverseGamma) (x sig2 : ℝ) :
    ℝ × NormalInverseGamma := (d.pdf x sig2, d)

/-- Invocation of logpdf on an object state (univariate.py line 538-542):
the body only reads self. -/
noncomputable def logpdfCall (d : NormalInverseGamma) (x sig2 : ℝ) :
    ℝ × NormalInverseGamma := (d.logpdf x sig2, d)

/-- Invocation of the mode property on an object state (univariate.py
line 544-546): the body only reads self. -/
noncomputable def modeCall (d : NormalInverseGamma) :
    (ℝ × ℝ) × NormalInverseGamma := (d.mode, d)

/-- Invocation of the mean property on an object state (univariate.py
line 548-551): the body only reads self. -/
noncomputable def meanCall (d : NormalInverseGamma) :
    (ℝ × EReal) × NormalInverseGamma := (d.mean, d)

/-- Invocation of rand on an object state (univariate.py line 553-570):
_rand1 and rand only read self; the local variable sig2 rebinding in
_rand1 is not an attribute write. -/
noncomputable def randCall (d : NormalInverseGamma) (n : ℕ) (ig : ℕ → ℝ)
    (nr : ℕ → ℝ → ℝ → ℝ) : ((ℝ × ℝ) ⊕ List (ℝ × ℝ)) × NormalInverseGamma :=
  (d.rand n ig nr, d)

/-- CPython float division a / b: raises ZeroDivisionError when the
divisor is zero, otherwise returns the quotient. -/
noncomputable def pyDiv (a b : ℝ) : Except String ℝ :=
  if b = 0 then Except.error "ZeroDivisionError" else Except.ok (a / b)

/-- CPython math.log: raises ValueError on a non-positive argument,
otherwise returns the logarithm. -/
noncomputable def pyLog (a : ℝ) : Except String ℝ :=
  if a ≤ 0 then Except.error "ValueError" else Except.ok (Real.log a)

/-- Exception-tracking embedding of NormalInverseGamma.pdf (univariate.py
line 532-536), mirroring CPython's left-to-right evaluation.  The two
divisions inside Zinv and the two divisions sc/sig2 and 0.5/(sig2*v)
inside the exponent are Python float divisions, which raise on a zero
divisor; np.sqrt, the float power, np.exp and the numpy scalar division
1./(np.sqrt(sig2) * sig2**(sh+1.)) only produce special values (nan,
inf, or a complex result for a negative base with non-integral
exponent, none of which this development relies on) and never raise, so
they stay total. -/
noncomputable def pdfExc (d : NormalInverseGamma) (x sig2 : ℝ) : Except String ℝ :=
  match pyDiv (d.scale ^ d.shape) (Real.Gamma d.shape) with
  | Except.error e => Except.error e
  | Except.ok t1 =>
    match pyDiv t1 (Real.sqrt (d.v0 * (2 * Real.pi))) with
    | Except.error e => Except.error e
    | Except.ok Zinv =>
      match pyDiv d.scale sig2 with
      | Except.error e => Except.error e
      | Except.ok t2 =>
        match pyDiv 0.5 (sig2 * d.v0) with
        | Except.error e => Except.error e
        | Except.ok t3 =>
          Except.ok (Zinv * (1 / (Real.sqrt sig2 * sig2 ^ (d.shape + 1))) *
            Real.exp (-t2 - t3 * (x - d.mu) ^ 2))

/-- Exception-tracking embedding of NormalInverseGamma.logpdf
(univariate.py line 538-542).  math.log(sc), math.log(v) and
math.log(2*pi) inside lZinv are CPython math.log calls that raise on
non-positive arguments; gammaln and np.log never raise (np.log of a
non-positive number is a nan or -inf special value, on which this
development does not rely), so they stay total; the divisions sc/sig2
and 0.5/(sig2*v) are Python float divisions. -/
noncomputable def logpdfExc (d : NormalInverseGamma) (x sig2 : ℝ) : Except String ℝ :=
  match pyLog d.scale with
  | Except.error e => Except.error e
  | Except.ok l1 =>
    match pyLog d.v0 with
    | Except.error e => Except.error e
    | Except.ok l2 =>
      match pyLog (2 * Real.pi) with
      | Except.error e => Except.error e
      | Except.ok l3 =>
        match pyDiv d.scale sig2 with
        | Except.error e => Except.error e
        | Except.ok t2 =>
          match pyDiv 0.5 (sig2 * d.v0) with
          | Except.error e => Except.error e
          | Except.ok t3 =>
            Except.ok (d.shape * l1 - Real.log (Real.Gamma d.shape) -
              0.5 * (l2 + l3) - 0.5 * Real.log sig2 -
              (d.shape + 1) * Real.log sig2 - t2 - t3 * (x - d.mu) ^ 2)

end NormalInverseGamma

namespace NormalInverseGamma

/-- C1: for parameters with v0 > 0, shape > 0, scale > 0 and any real x
and sig2 > 0, pdf(x, sig2) returns exactly the closed-form value
Zinv * (1 / (sqrt(sig2) * sig2^(shape+1))) * exp(-scale/sig2 - (x-mu)^2/(2*sig2*v0))
with Zinv = scale^shape / Gamma(shape) / sqrt(v0 * 2*pi). -/
theorem pdf_matches_spec_formula (d : NormalInverseGamma) (x sig2 : ℝ)
    (hv : 0 < d.v0) (hsh : 0 < d.shape) (hsc : 0 < d.scale) (hs : 0 < sig2) :
    d.pdf x sig2 = pdfSpecFormula d x sig2 := by
  simp only [pdf, pdfSpecFormula]
  congr 2
  ring

/-- Witness for C1 at the module's own self-test input
NormalInverseGamma(0.0, 1.0, 5.0, 6.0).pdf(1.0, 3.0). -/
theorem pdf_matches_spec_formula_witness :
    pdf ⟨0, 1, 5, 6⟩ 1 3 = pdfSpecFormula ⟨0, 1, 5, 6⟩ 1 3 :=
  pdf_matches_spec_formula ⟨0, 1, 5, 6⟩ 1 3 (by norm_num) (by norm_num)
    (by norm_num) (by norm_num)

/-- C2: for parameters with v0 > 0, shape > 0, scale > 0, every real x
and every sig2 > 0, logpdf(x, sig2) equals log(pdf(x, sig2)) as an
identity of the embedded real-valued functions, with the log-gamma
capability read as the logarithm of the Gamma capability. -/
theorem logpdf_eq_log_pdf (d : NormalInverseGamma) (x sig2 : ℝ)
    (hv : 0 < d.v0) (hsh : 0 < d.shape) (hsc : 0 < d.scale) (hs : 0 < sig2) :
    d.logpdf x sig2 = Real.log (d.pdf x sig2) := by
  have h2pi : (0 : ℝ) < 2 * Real.pi := by positivity
  have hGamma : 0 < Real.Gamma d.shape := Real.Gamma_pos_of_pos hsh
  have hpow : 0 < d.scale ^ d.shape := Real.rpow_pos_of_pos hsc _
  have hv2pi : (0 : ℝ) < d.v0 * (2 * Real.pi) := by positivity
  have hsqv : 0 < Real.sqrt (d.v0 * (2 * Real.pi)) := Real.sqrt_pos.mpr hv2pi
  have hss : 0 < Real.sqrt sig2 := Real.sqrt_pos.mpr hs
  have hsp : 0 < sig2 ^ (d.shape + 1) := Real.rpow_pos_of_pos hs _
  have hZ : 0 < d.scale ^ d.shape / Real.Gamma d.shape /
      Real.sqrt (d.v0 * (2 * Real.pi)) := by positivity
  have hB : 0 < 1 / (Real.sqrt sig2 * sig2 ^ (d.shape + 1)) := by positivity
  simp only [pdf, logpdf]
  rw [Real.log_mul (by positivity) (Real.exp_ne_zero _),
    Real.log_mul hZ.ne' hB.ne', Real.log_exp,
    Real.log_div (div_ne_zero hpow.ne' hGamma.ne') hsqv.ne',
    Real.log_div hpow.ne' hGamma.ne', Real.log_rpow hsc,
    Real.log_sqrt hv2pi.le, Real.log_mul hv.ne' h2pi.ne',
    one_div, Real.log_inv, Real.log_mul hss.ne' hsp.ne',
    Real.log_sqrt hs.le, Real.log_rpow hs]
  ring

/-- Witness for C2 at parameters (0, 1, 5, 6), x = 1, sig2 = 3. -/
theorem logpdf_eq_log_pdf_witness :
    logpdf ⟨0, 1, 5, 6⟩ 1 3 = Real.log (pdf ⟨0, 1, 5, 6⟩ 1 3) :=
  logpdf_eq_log_pdf ⟨0, 1, 5, 6⟩ 1 3 (by norm_num) (by norm_num)
    (by norm_num) (by norm_num)

/-- C4: mean returns the pair (mu, scale/(shape - 1)) when shape > 1, and
the pair (mu, positive infinity) - a value, not an error - when
shape <= 1. -/
theorem mean_formula (d : NormalInverseGamma) :
    (1 < d.shape → d.mean = (d.mu, Real.toEReal (d.scale / (d.shape - 1)))) ∧
    (d.shape ≤ 1 → d.mean = (d.mu, (⊤ : EReal))) := by
  constructor
  · intro h
    simp only [mean, if_pos h]
  · intro h
    simp only [mean, if_neg (not_lt.mpr h)]

/-- Witness for C4: shape = 5 > 1 gives mean (0, 6/4) = (0, 1.5), and
shape = 1 gives mean (0, +infinity). -/
theorem mean_formula_witness :
    mean ⟨0, 1, 5, 6⟩ = (0, Real.toEReal (6 / (5 - 1))) ∧
    mean ⟨0, 1, 1, 6⟩ = (0, (⊤ : EReal)) :=
  ⟨(mean_formula ⟨0, 1, 5, 6⟩).1 (by norm_num),
   (mean_formula ⟨0, 1, 1, 6⟩).2 (by norm_num)⟩

/-- C6: for every parameter tuple with shape > -1, the mode property
returns exactly the pair (mu, scale / (shape + 1)). -/
theorem mode_formula (d : NormalInverseGamma) (h : -1 < d.shape) :
    d.mode = (d.mu, d.scale / (d.shape + 1)) := rfl

/-- Witness for C6: at (mu = 0, v0 = 1, shape = 5, scale = 6) mode
evaluates to (0, 1). -/
theorem mode_formula_witness :
    mode ⟨0, 1, 5, 6⟩ = ((0 : ℝ), (1 : ℝ)) := by
  rw [mode_formula ⟨0, 1, 5, 6⟩ (by norm_num)]
  norm_num

theorem npResolution_pos : 0 < npResolution := by
  simp only [npResolution]
  norm_num

theorem rand_of_ne_one (d : NormalInverseGamma) (n : ℕ) (ig : ℕ → ℝ)
    (nr : ℕ → ℝ → ℝ → ℝ) (h : n ≠ 1) :
    d.rand n ig nr = Sum.inr ((List.range n).map (fun i => rand1 d (ig i) (nr i))) := by
  simp only [rand, if_neg h]

theorem rand1_snd_pos (d : NormalInverseGamma) (igDraw : ℝ)
    (normalDraw : ℝ → ℝ → ℝ) : 0 < (rand1 d igDraw normalDraw).2 := by
  simp only [rand1]
  split
  · exact npResolution_pos
  · next h => exact lt_of_not_le h

/-- C3: whenever the InverseGamma draw is non-positive, _rand1 clamps the
variance to np.finfo(float).resolution = 1e-15 and uses that value both
for the Normal draw's standard deviation and as the returned second
component; this constant is NOT the machine epsilon 2^-52 the spec
describes, so the clamp value diverges from the spec (and from the
code's own comment claiming equivalence with julia eps()).  Stated at
the concrete failing input: distribution (0, 1, 5, 6) with an
InverseGamma draw of -1. -/
theorem rand1_clamps_to_resolution_not_machine_eps :
    (rand1 ⟨0, 1, 5, 6⟩ (-1) (fun m s => m + s)).2 = npResolution ∧
    (rand1 ⟨0, 1, 5, 6⟩ (-1) (fun m s => m + s)).1 =
      (0 : ℝ) + Real.sqrt (npResolution * 1) ∧
    npResolution ≠ machineEpsSpec := by
  refine ⟨?_, ?_, ?_⟩
  · simp only [rand1]
    rw [if_pos (by norm_num : (-1 : ℝ) ≤ 0)]
  · simp only [rand1]
    rw [if_pos (by norm_num : (-1 : ℝ) ≤ 0)]
  · simp only [npResolution, machineEpsSpec]
    norm_num

/-- C7: for every n > 1, rand returns an ordered sequence of exactly n
pairs, the i-th produced by the i-th independent execution of the
single-draw procedure, and the second component of every pair is
strictly positive whatever values the InverseGamma oracle produced. -/
theorem rand_multi_draws (d : NormalInverseGamma) (n : ℕ) (ig : ℕ → ℝ)
    (nr : ℕ → ℝ → ℝ → ℝ) (hn : 1 < n) :
    ∃ L : List (ℝ × ℝ), d.rand n ig nr = Sum.inr L ∧ L.length = n ∧
      (∀ i, i < n → L[i]? = some (rand1 d (ig i) (nr i))) ∧
      (∀ p ∈ L, 0 < p.2) := by
  refine ⟨(List.range n).map (fun i => rand1 d (ig i) (nr i)),
    rand_of_ne_one d n ig nr (by omega), by simp, ?_, ?_⟩
  · intro i hi
    simp [List.getElem?_map, List.getElem?_range hi]
  · intro p hp
    simp only [List.mem_map] at hp
    obtain ⟨i, -, rfl⟩ := hp
    exact rand1_snd_pos d (ig i) (nr i)

/-- Witness for C7 at n = 2 with an oracle that always draws -1. -/
theorem rand_multi_draws_witness :
    ∃ L : List (ℝ × ℝ),
      rand ⟨0, 1, 5, 6⟩ 2 (fun _ => -1) (fun _ m s => m + s) = Sum.inr L ∧
      L.length = 2 ∧
      (∀ i, i < 2 → L[i]? =
        some (rand1 ⟨0, 1, 5, 6⟩ ((fun _ => (-1 : ℝ)) i) ((fun _ m s => m + s) i))) ∧
      (∀ p ∈ L, 0 < p.2) :=
  rand_multi_draws ⟨0, 1, 5, 6⟩ 2 (fun _ => -1) (fun _ m s => m + s) (by norm_num)

/-- C10: the return shape of rand depends on n: for n = 1 it is the
single pair produced by one run of the single-draw procedure (the left
summand), while for every n > 1 it is a sequence of n pairs (the right
summand) - two different result types at the boundary n = 1 versus
n > 1. -/
theorem rand_return_shape_boundary (d : NormalInverseGamma) (n : ℕ)
    (ig : ℕ → ℝ) (nr : ℕ → ℝ → ℝ → ℝ) (hn : 1 < n) :
    d.rand 1 ig nr = Sum.inl (rand1 d (ig 0) (nr 0)) ∧
    (∃ L : List (ℝ × ℝ), d.rand n ig nr = Sum.inr L ∧ L.length = n) ∧
    (d.rand 1 ig nr).isLeft = true ∧ (d.rand n ig nr).isRight = true := by
  have h1 : d.rand 1 ig nr = Sum.inl (rand1 d (ig 0) (nr 0)) := by
    simp [rand]
  have h2 := rand_of_ne_one d n ig nr (by omega)
  refine ⟨h1, ⟨_, h2, by simp⟩, ?_, ?_⟩
  · rw [h1]; rfl
  · rw [h2]; rfl

/-- Witness for C10 at n = 2. -/
theorem rand_return_shape_boundary_witness :
    rand ⟨0, 1, 5, 6⟩ 1 (fun _ => -1) (fun _ m s => m + s) =
      Sum.inl (rand1 ⟨0, 1, 5, 6⟩ ((fun _ => (-1 : ℝ)) 0) ((fun _ m s => m + s) 0)) ∧
    (∃ L : List (ℝ × ℝ),
      rand ⟨0, 1, 5, 6⟩ 2 (fun _ => -1) (fun _ m s => m + s) = Sum.inr L ∧
      L.length = 2) ∧
    (rand ⟨0, 1, 5, 6⟩ 1 (fun _ => -1) (fun _ m s => m + s)).isLeft = true ∧
    (rand ⟨0, 1, 5, 6⟩ 2 (fun _ => -1) (fun _ m s => m + s)).isRight = true :=
  rand_return_shape_boundary ⟨0, 1, 5, 6⟩ 2 (fun _ => -1) (fun _ m s => m + s)
    (by norm_num)

/-- C8: every density, moment or sampling operation is a pure function of
the stored parameters and the call's own arguments: two objects holding
equal parameters give equal results on equal arguments (with equal
randomness oracles for sampling), and no call history or cache exists -
the operations are functions of the parameter record alone. -/
theorem ops_pure (d1 d2 : NormalInverseGamma) (x sig2 : ℝ) (n : ℕ)
    (ig : ℕ → ℝ) (nr : ℕ → ℝ → ℝ → ℝ)
    (hmu : d1.mu = d2.mu) (hv : d1.v0 = d2.v0)
    (hsh : d1.shape = d2.shape) (hsc : d1.scale = d2.scale) :
    d1.pdf x sig2 = d2.pdf x sig2 ∧ d1.logpdf x sig2 = d2.logpdf x sig2 ∧
    d1.mode = d2.mode ∧ d1.mean = d2.mean ∧
    d1.rand n ig nr = d2.rand n ig nr := by
  have hd : d1 = d2 := NormalInverseGamma.ext hmu hv hsh hsc
  rw [hd]
  exact ⟨rfl, rfl, rfl, rfl, rfl⟩

/-- Witness for C8: two separately constructed objects with the same
parameters agree on all operations. -/
theorem ops_pure_witness :
    pdf ⟨0, 1, 5, 6⟩ 1 3 = pdf ⟨0, 1, 5, 6⟩ 1 3 ∧
    logpdf ⟨0, 1, 5, 6⟩ 1 3 = logpdf ⟨0, 1, 5, 6⟩ 1 3 ∧
    mode ⟨0, 1, 5, 6⟩ = mode ⟨0, 1, 5, 6⟩ ∧
    mean ⟨0, 1, 5, 6⟩ = mean ⟨0, 1, 5, 6⟩ ∧
    rand ⟨0, 1, 5, 6⟩ 2 (fun _ => -1) (fun _ m s => m + s) =
      rand ⟨0, 1, 5, 6⟩ 2 (fun _ => -1) (fun _ m s => m + s) :=
  ops_pure ⟨0, 1, 5, 6⟩ ⟨0, 1, 5, 6⟩ 1 3 2 (fun _ => -1) (fun _ m s => m + s)
    rfl rfl rfl rfl

/-- C9: the constructor stores mu, v0, shape, scale verbatim for all real
arguments with no validation or rejection, and no operation (pdf,
logpdf, mode, mean, rand) changes any attribute: the object state after
any call equals the state before it. -/
theorem init_verbatim_ops_frame (mu v0 shape scale x sig2 : ℝ) (n : ℕ)
    (ig : ℕ → ℝ) (nr : ℕ → ℝ → ℝ → ℝ) (d : NormalInverseGamma) :
    (NormalInverseGamma.mk mu v0 shape scale).mu = mu ∧
    (NormalInverseGamma.mk mu v0 shape scale).v0 = v0 ∧
    (NormalInverseGamma.mk mu v0 shape scale).shape = shape ∧
    (NormalInverseGamma.mk mu v0 shape scale).scale = scale ∧
    (pdfCall d x sig2).2 = d ∧ (logpdfCall d x sig2).2 = d ∧
    (modeCall d).2 = d ∧ (meanCall d).2 = d ∧
    (randCall d n ig nr).2 = d :=
  ⟨rfl, rfl, rfl, rfl, rfl, rfl, rfl, rfl, rfl⟩

/-- C5 counterexample: at sig2 = 0 both pdf and logpdf raise a
ZeroDivisionError (from the Python float division scale/sig2 inside the
exponent term) instead of returning an IEEE-754 special value, refuting
the claim that no exception is raised for every non-positive sig2. -/
theorem pdf_logpdf_raise_at_sig2_zero :
    pdfExc ⟨0, 1, 5, 6⟩ 1 0 = Except.error "ZeroDivisionError" ∧
    logpdfExc ⟨0, 1, 5, 6⟩ 1 0 = Except.error "ZeroDivisionError" := by
  have hG : Real.Gamma ((5 : ℝ)) ≠ 0 :=
    (Real.Gamma_pos_of_pos (by norm_num)).ne'
  have hsq : Real.sqrt ((1 : ℝ) * (2 * Real.pi)) ≠ 0 := by positivity
  have hsq' : Real.sqrt (2 * Real.pi) ≠ 0 := by positivity
  have h6 : ¬((6 : ℝ) ≤ 0) := by norm_num
  have h1 : ¬((1 : ℝ) ≤ 0) := by norm_num
  have h2pi : ¬(2 * Real.pi ≤ 0) := not_le.mpr (by positivity)
  constructor
  · simp [pdfExc, pyDiv, hG, hsq, hsq', Nat.factorial_ne_zero,
      Real.sqrt_eq_zero', Real.pi_pos.not_le]
  · simp [logpdfExc, pyDiv, pyLog, h6, h1, h2pi]

/-- C5 (amended): for every strictly negative sig2 (with positive
parameters) pdf and logpdf run to completion and return an ordinary
value without raising; the original claim fails only at sig2 = 0, where
the Python float division scale/sig2 raises ZeroDivisionError. -/
theorem pdf_logpdf_no_raise_for_neg_sig2 (d : NormalInverseGamma)
    (x sig2 : ℝ) (hv : 0 < d.v0) (hsh : 0 < d.shape) (hsc : 0 < d.scale)
    (hs : sig2 < 0) :
    (pdfExc d x sig2).isOk = true ∧ (logpdfExc d x sig2).isOk = true := by
  have hG : Real.Gamma d.shape ≠ 0 := (Real.Gamma_pos_of_pos hsh).ne'
  have hsq : Real.sqrt (d.v0 * (2 * Real.pi)) ≠ 0 := by positivity
  have hs0 : sig2 ≠ 0 := hs.ne
  have hsv : sig2 * d.v0 ≠ 0 := mul_ne_zero hs0 hv.ne'
  have hscn : ¬(d.scale ≤ 0) := not_le.mpr hsc
  have hvn : ¬(d.v0 ≤ 0) := not_le.mpr hv
  have h2pi : ¬(2 * Real.pi ≤ 0) := not_le.mpr (by positivity)
  constructor
  · simp [pdfExc, pyDiv, hG, hsq, hs0, hsv, Except.isOk, Except.toBool]
  · simp [logpdfExc, pyDiv, pyLog, hs0, hsv, hscn, hvn, h2pi,
      Except.isOk, Except.toBool]

/-- Witness for the amended C5 at parameters (0, 1, 5, 6), x = 1 and
sig2 = -1. -/
theorem pdf_logpdf_no_raise_for_neg_sig2_witness :
    (pdfExc ⟨0, 1, 5, 6⟩ 1 (-1)).isOk = true ∧
    (logpdfExc ⟨0, 1, 5, 6⟩ 1 (-1)).isOk = true :=
  pdf_logpdf_no_raise_for_neg_sig2 ⟨0, 1, 5, 6⟩ 1 (-1) (by norm_num)
    (by norm_num) (by norm_num) (by norm_num)

end NormalInverseGamma
